import Mathlib

/-!
Verification of the Flippit car-marketplace monitor against its
natural-language specification.  The Python sources
(`kbb_value_estimator.py`, `fb_scraper.py`, `enhanced_distributed_scraper.py`,
`database.py`, `api_server.py`) are shallowly embedded below: pure functions
become Lean functions over `ℚ` / `ℤ` / `String`, stateful code becomes explicit
state passing, fallible code returns `Option` / `Except`.  Network and
browser effects are abstracted as oracle parameters; everything the claims
quantify over is modelled from the source.
-/

namespace Flippit

/-! ## String helpers (Python `str.lower`, `in`, `int(...)`, `str.isdigit`) -/

/-- Python `str.lower()` (ASCII, which is all the sources use). -/
def lowerStr (s : String) : String := String.mk (s.data.map Char.toLower)

/-- Does `needle` occur at the head of `hay`? (helper for substring search). -/
def startsWith : List Char → List Char → Bool
  | _, [] => true
  | [], _ :: _ => false
  | h :: hs, n :: ns => h == n && startsWith hs ns

/-- One pass of Python `str.replace`: replace every non-overlapping occurrence
of `old` (always nonempty in the sources) left to right.  The fuel argument
(instantiated with the subject length) only makes the recursion structural;
it never runs out for a nonempty `old`. -/
def replaceFuel (old new : List Char) : ℕ → List Char → List Char
  | 0, s => s
  | f + 1, s =>
    match s with
    | [] => []
    | h :: t =>
      if startsWith s old then new ++ replaceFuel old new f (t.drop (old.length - 1))
      else h :: replaceFuel old new f t

/-- Python `s.replace(old, new)`. -/
def replaceStr (s old new : String) : String :=
  String.mk (replaceFuel old.data new.data s.data.length s.data)

/-- Python `str.strip()` (only ever applied around optional whitespace). -/
def trimChars (l : List Char) : List Char :=
  ((l.dropWhile Char.isWhitespace).reverse.dropWhile Char.isWhitespace).reverse

/-- Does `needle` occur contiguously anywhere in `hay`? -/
def containsSub : List Char → List Char → Bool
  | [], needle => needle.isEmpty
  | h :: t, needle => startsWith (h :: t) needle || containsSub t needle

/-- Python `needle in hay` on strings. -/
def strContains (hay needle : String) : Bool := containsSub hay.toList needle.toList

/-- Numeric value of a digit string. -/
def digitsToNat (l : List Char) : ℕ := l.foldl (fun acc c => acc * 10 + (c.toNat - 48)) 0

/-- Python `int(s)` on a string: optional surrounding whitespace, optional
sign, then digits; `none` models the `ValueError` the callers catch. -/
def parseIntStr (s : String) : Option ℤ :=
  match trimChars s.data with
  | [] => none
  | '-' :: rest =>
    if rest ≠ [] ∧ rest.all Char.isDigit then some (-(digitsToNat rest : ℤ)) else none
  | '+' :: rest =>
    if rest ≠ [] ∧ rest.all Char.isDigit then some ((digitsToNat rest : ℤ)) else none
  | l => if l.all Char.isDigit then some ((digitsToNat l : ℤ)) else none

/-- Python `int(s) if s.isdigit() else None` (as used in the price-history
block of `enhanced_save_car_listings`). -/
def digitsOnlyVal (s : String) : Option ℤ :=
  match s.toList with
  | [] => none
  | l => if l.all Char.isDigit then some ((digitsToNat l : ℤ)) else none

/-- Python `int(q)` on a float: truncation toward zero. -/
def truncQ (q : ℚ) : ℤ := if 0 ≤ q then ⌊q⌋ else ⌈q⌉

/-! ## `kbb_value_estimator.py` — `KBBValueEstimator` -/

/-- `self.depreciation_rates`: the per-year dictionary (keys 1..5). -/
def depreciationRates : ℕ → ℚ
  | 1 => 20 / 100
  | 2 => 15 / 100
  | 3 => 10 / 100
  | 4 => 8 / 100
  | _ => 7 / 100

/-- Rate used for a given loop year in `_apply_depreciation`:
`rates[year] if year <= 5 else rates[5]`. -/
def rateForYear (year : ℕ) : ℚ :=
  if year ≤ 5 then depreciationRates year else depreciationRates 5

/-- The `for year in range(1, age + 1)` loop body of `_apply_depreciation`:
`value *= (1 - rate)`, with `year` starting at 1. -/
def depLoop (value : ℚ) (year : ℕ) : ℕ → ℚ
  | 0 => value
  | r + 1 => depLoop (value * (1 - rateForYear year)) (year + 1) r

/-- `KBBValueEstimator._apply_depreciation`: run the loop (`max (age) 0`
iterations), then `max(value, base_price * 0.10)`. -/
def applyDepreciation (basePrice : ℚ) (age : ℤ) : ℚ :=
  max (depLoop basePrice 1 age.toNat) (basePrice * (10 / 100))

/-- `self.base_msrp`: the (make, model) → MSRP table. -/
def baseMsrp (make model : String) : Option ℚ :=
  match make, model with
  | "honda", "civic" => some 25000
  | "honda", "accord" => some 28000
  | "honda", "cr-v" => some 30000
  | "honda", "pilot" => some 40000
  | "honda", "odyssey" => some 38000
  | "honda", "hr-v" => some 25000
  | "honda", "ridgeline" => some 40000
  | "toyota", "corolla" => some 24000
  | "toyota", "camry" => some 27000
  | "toyota", "rav4" => some 30000
  | "toyota", "highlander" => some 38000
  | "toyota", "tacoma" => some 32000
  | "toyota", "tundra" => some 40000
  | "toyota", "prius" => some 28000
  | "toyota", "sienna" => some 37000
  | "ford", "mustang" => some 32000
  | "ford", "f-150" => some 38000
  | "ford", "explorer" => some 38000
  | "ford", "escape" => some 30000
  | "ford", "edge" => some 35000
  | "ford", "ranger" => some 30000
  | "ford", "expedition" => some 55000
  | "chevrolet", "malibu" => some 26000
  | "chevrolet", "camaro" => some 28000
  | "chevrolet", "silverado" => some 38000
  | "chevrolet", "equinox" => some 28000
  | "chevrolet", "traverse" => some 35000
  | "chevrolet", "tahoe" => some 55000
  | "chevrolet", "colorado" => some 30000
  | "nissan", "altima" => some 26000
  | "nissan", "sentra" => some 21000
  | "nissan", "rogue" => some 29000
  | "nissan", "pathfinder" => some 36000
  | "nissan", "frontier" => some 30000
  | "nissan", "maxima" => some 38000
  | "nissan", "murano" => some 34000
  | _, _ => none

/-- `default_prices` in `_get_base_price`, with the `.get(make, 30000)`
global default. -/
def defaultPrices (make : String) : ℚ :=
  match make with
  | "honda" => 28000
  | "toyota" => 29000
  | "ford" => 32000
  | "chevrolet" => 31000
  | "nissan" => 27000
  | "mazda" => 26000
  | "hyundai" => 25000
  | "kia" => 24000
  | "subaru" => 28000
  | "volkswagen" => 30000
  | "bmw" => 45000
  | "mercedes" => 50000
  | "audi" => 45000
  | "lexus" => 45000
  | "acura" => 38000
  | "infiniti" => 40000
  | _ => 30000

/-- `KBBValueEstimator._get_base_price` (its `current_year`/`year_diff`
locals are dead code and are omitted): table hit gets the
`if year > 2020` inflation adjustment against 2024, otherwise the make-level
default is returned. -/
def getBasePrice (make model : String) (year : ℤ) : ℚ :=
  match baseMsrp make model with
  | some base => if 2020 < year then base * (1 - (2 / 100) * ((2024 : ℚ) - year)) else base
  | none => defaultPrices make

/-- `self.condition_multipliers` with the `.get(condition, 1.0)` default. -/
def conditionMultipliers (condition : String) : ℚ :=
  match condition with
  | "excellent" => 110 / 100
  | "very_good" => 105 / 100
  | "good" => 100 / 100
  | "fair" => 90 / 100
  | "poor" => 75 / 100
  | _ => 1

/-- The `if mileage:` block of `estimate_value`: Python truthiness means the
adjustment runs only for a present, nonzero mileage; the adjustment is
`(mileage - car_age * 12000) / 1000 * 0.005` and the value is multiplied by
`1 -` that. -/
def applyMileage (depreciated : ℚ) (carAge : ℤ) (mileage : Option ℤ) : ℚ :=
  match mileage with
  | none => depreciated
  | some m =>
    if m = 0 then depreciated
    else depreciated * (1 - ((m : ℚ) - (carAge : ℚ) * 12000) / 1000 * (5 / 1000))

/-- Base price, depreciation and mileage adjustment of `estimate_value`,
factored out. -/
def adjustedValue (currentYear year : ℤ) (makeLower modelLower : String)
    (mileage : Option ℤ) : ℚ :=
  applyMileage (applyDepreciation (getBasePrice makeLower modelLower year) (currentYear - year))
    (currentYear - year) mileage

/-- The `values` dictionary of `estimate_value`. -/
structure KBBValues where
  tradeIn : ℤ
  privateParty : ℤ
  dealerRetail : ℤ
  certifiedPreowned : ℤ
deriving DecidableEq, Repr

/-- Result of `_get_market_insights`. -/
structure MarketInsights where
  demand : String
  depreciationRate : String
  bestTimeToBuy : String
  notes : List String
deriving DecidableEq, Repr

/-- `KBBValueEstimator._get_market_insights`. -/
def getMarketInsights (make : String) (age : ℤ) : MarketInsights :=
  let base : MarketInsights :=
    { demand := "average", depreciationRate := "normal", bestTimeToBuy := "now", notes := [] }
  let withBrand :=
    if make = "honda" ∨ make = "toyota" ∨ make = "mazda" then
      { base with
          demand := "high"
          depreciationRate := "slower"
          notes := base.notes ++ ["This brand typically holds value well"] }
    else if make = "bmw" ∨ make = "mercedes" ∨ make = "audi" then
      { base with
          depreciationRate := "faster"
          notes := base.notes ++ ["Luxury vehicles typically depreciate faster"] }
    else base
  if age ≤ 3 then
    { withBrand with notes := withBrand.notes ++ ["Still under typical warranty period"] }
  else if 7 ≤ age then
    { withBrand with
        notes := withBrand.notes ++ ["Major depreciation has already occurred"]
        bestTimeToBuy := "good value range" }
  else withBrand

/-- Is the make a key of `base_msrp`? -/
def makeInMsrp (make : String) : Bool :=
  match make with
  | "honda" | "toyota" | "ford" | "chevrolet" | "nissan" => true
  | _ => false

/-- `KBBValueEstimator._calculate_confidence`. -/
def calcConfidence (make model : String) : String :=
  if (baseMsrp make model).isSome then "high"
  else if makeInMsrp make then "medium"
  else "low"

/-- The constant `disclaimer` string of `estimate_value`. -/
def disclaimerText : String :=
  "These are ESTIMATES based on market analysis, NOT official KBB values. Actual values may vary significantly based on condition, location, and market demand."

/-- Return value of `estimate_value`.  The `factors_considered` entry
(display-only formatted strings) is omitted. -/
structure ValueEstimate where
  values : KBBValues
  confidence : String
  marketInsights : MarketInsights
  disclaimer : String
deriving DecidableEq, Repr

/-- `KBBValueEstimator.estimate_value`.  The source reads the wall clock via
`datetime.now().year`; that read is the explicit `currentYear` argument here,
under which the whole computation is a pure function of its inputs. -/
def estimateValue (currentYear : ℤ) (make model : String) (year : ℤ)
    (mileage : Option ℤ) (condition : String) : ValueEstimate :=
  let makeLower := lowerStr make
  let modelLower := lowerStr model
  let carAge := currentYear - year
  let depreciated := adjustedValue currentYear year makeLower modelLower mileage
  let condMult := conditionMultipliers condition
  { values :=
      { tradeIn := truncQ (depreciated * condMult * (85 / 100))
        privateParty := truncQ (depreciated * condMult * 1)
        dealerRetail := truncQ (depreciated * condMult * (115 / 100))
        certifiedPreowned := truncQ (depreciated * condMult * (120 / 100)) }
    confidence := calcConfidence makeLower modelLower
    marketInsights := getMarketInsights makeLower carAge
    disclaimer := disclaimerText }

/-- Return value of `calculate_deal_score`.  `price_difference_percent` is
kept exact here (the source rounds it to one decimal for display); the
`analysis` display string is omitted. -/
structure DealScore where
  score : ℕ
  rating : String
  color : String
  priceDifference : ℤ
  priceDifferencePercent : ℚ
  listingPrice : ℚ
  estimatedValue : ℤ
  belowMarket : Bool
  savingsPotential : ℤ
deriving DecidableEq, Repr

/-- `KBBValueEstimator.calculate_deal_score`.  The division
`price_diff / private_party_value` raises `ZeroDivisionError` in the source
when the private-party value is 0; that is the `none` branch.  The emoji
glyphs prefixing the rating strings are dropped. -/
def calculateDealScore (listingPrice : ℚ) (estimatedValue : ValueEstimate) : Option DealScore :=
  let pp := estimatedValue.values.privateParty
  if pp = 0 then none
  else
    let priceDiff : ℚ := (pp : ℚ) - listingPrice
    let pct : ℚ := priceDiff / (pp : ℚ) * 100
    let score : ℕ :=
      if 20 ≤ pct then 95
      else if 10 ≤ pct then 85
      else if 5 ≤ pct then 75
      else if 0 ≤ pct then 65
      else if -5 ≤ pct then 50
      else if -10 ≤ pct then 35
      else 20
    let ratingColor : String × String :=
      if 85 ≤ score then ("HOT DEAL", "#FF4500")
      else if 75 ≤ score then ("GREAT DEAL", "#32CD32")
      else if 65 ≤ score then ("GOOD DEAL", "#228B22")
      else if 50 ≤ score then ("FAIR PRICE", "#4169E1")
      else ("OVERPRICED", "#DC143C")
    some
      { score := score
        rating := ratingColor.1
        color := ratingColor.2
        priceDifference := truncQ priceDiff
        priceDifferencePercent := pct
        listingPrice := listingPrice
        estimatedValue := pp
        belowMarket := 0 < priceDiff
        savingsPotential := max 0 (truncQ priceDiff) }

/-! ### Spec-side definitions for the valuation claims -/

/-- Spec-side rate schedule: 20 %, 15 %, 10 %, 8 %, then 7 % for year 5 and
every later year (claim C8's wording; year 0 is outside the schedule). -/
def specDepRate (y : ℕ) : ℚ :=
  if y = 0 then 0
  else if y = 1 then 1 / 5
  else if y = 2 then 3 / 20
  else if y = 3 then 1 / 10
  else if y = 4 then 2 / 25
  else 7 / 100

/-- Spec-side compounded factor after `a` whole years. -/
def specFactor : ℕ → ℚ
  | 0 => 1
  | a + 1 => specFactor a * (1 - specDepRate (a + 1))

/-- Spec-side compounded value: the base price compounded by the fixed
per-year rate schedule. -/
def specCompounded (b : ℚ) (a : ℕ) : ℚ := b * specFactor a

/-- Spec-side deal-score step function of claim C2: percent-below-estimate
mapped to the fixed score bands. -/
def specDealStep (pct : ℚ) : ℕ :=
  if 20 ≤ pct then 95
  else if 10 ≤ pct then 85
  else if 5 ≤ pct then 75
  else if 0 ≤ pct then 65
  else if -5 ≤ pct then 50
  else if -10 ≤ pct then 35
  else 20

/-! ## `fb_scraper.py` — `SeleniumFacebookCarScraper._is_valid_car_listing` -/

/-- The fields of an extracted listing dict that `_is_valid_car_listing`
reads; a missing or empty value is the empty string (both are falsy under
`listing.get(...)`). -/
structure FBListing where
  title : String
  price : String
  location : String
deriving DecidableEq, Repr

/-- `car_indicators` of `_is_valid_car_listing`. -/
def carIndicators : List String :=
  ["car", "vehicle", "miles", "automatic", "manual",
   "sedan", "suv", "truck", "van", "coupe", "convertible",
   "hatchback", "wagon", "minivan", "pickup"]

/-- `car_brands` of `_is_valid_car_listing`. -/
def carBrands : List String :=
  ["honda", "toyota", "ford", "chevrolet", "nissan", "mazda",
   "hyundai", "kia", "subaru", "volkswagen", "bmw", "mercedes",
   "audi", "lexus", "acura", "infiniti", "gmc", "ram", "jeep"]

/-- `SeleniumFacebookCarScraper._is_valid_car_listing`. -/
def isValidCarListing (l : FBListing) : Bool :=
  let text := lowerStr (l.title ++ " " ++ l.location)
  if l.price = "" ∨ l.title = "" then false
  else
    carIndicators.any (fun k => strContains text k) ||
    carBrands.any (fun k => strContains text k)

/-- Spec-side positive score of a candidate: how many positive domain
keywords (vehicle indicators and brand names) occur in its text. -/
def positiveScore (l : FBListing) : ℕ :=
  ((carIndicators ++ carBrands).filter
    (fun k => strContains (lowerStr (l.title ++ " " ++ l.location)) k)).length

/-- Modelled from the spec: the spec posits negative keywords (unrelated
product categories), but `fb_scraper.py` defines no negative keyword list,
so the negative score of every candidate under the source is zero. -/
def negativeScore (_ : FBListing) : ℕ := 0

/-! ## `enhanced_distributed_scraper.py` -/

/-- A distributed node; the selection logic reads only `node['id']` (the
node's URL is consumed by the abstracted network call). -/
structure Node where
  id : String
deriving DecidableEq, Repr

/-- Mutable state of `DistributedScraperClient`: the node list, the
round-robin index and the cooldown map (`node id → cooldown-until time`).
Times are modelled as integers. -/
structure ClientState where
  nodes : List Node
  currentNodeIndex : ℕ
  nodeCooldowns : String → Option ℤ

/-- The `while attempts < len(self.nodes)` loop of
`get_next_available_node`: read `nodes[idx]`, advance the index mod the
length, skip (consuming one attempt) if the node is cooling down, else
return it.  `remaining` counts the attempts left. -/
def getNextAux (nodes : List Node) (cooldowns : String → Option ℤ) (now : ℤ) :
    ℕ → ℕ → Option Node × ℕ
  | idx, 0 => (none, idx)
  | idx, r + 1 =>
    match nodes.get? idx with
    | none => (none, idx)
    | some node =>
      let idx' := (idx + 1) % nodes.length
      match cooldowns node.id with
      | some cu =>
        if now < cu then getNextAux nodes cooldowns now idx' r else (some node, idx')
      | none => (some node, idx')

/-- `DistributedScraperClient.get_next_available_node`: returns the chosen
node (or `None` when every node is cooling down) together with the updated
client state. -/
def getNextAvailableNode (st : ClientState) (now : ℤ) : Option Node × ClientState :=
  let out := getNextAux st.nodes st.nodeCooldowns now st.currentNodeIndex st.nodes.length
  (out.1, { st with currentNodeIndex := out.2 })

/-- `SmartFacebookScraper._try_distributed_nodes`: pick a node; with none
available return `[]`, otherwise delegate to `scrape_with_node` (a network
call, abstracted as the `scrape` oracle which may also update cooldowns). -/
def tryDistributedNodes {α : Type} (scrape : Node → ClientState → List α × ClientState)
    (st : ClientState) (now : ℤ) : List α × ClientState :=
  match getNextAvailableNode st now with
  | (none, st') => ([], st')
  | (some node, st') => scrape node st'

/-- The three entries of `SmartFacebookScraper.strategies`, in order. -/
inductive StrategyName
  | distributedNodes
  | craigslistFallback
  | mockData
deriving DecidableEq, Repr

/-- The `for strategy in self.strategies` loop of
`SmartFacebookScraper.search`: a raising strategy (`Except.error`) is caught
and skipped; a non-empty result is appended to `all_listings`; the loop
breaks only when the distributed-nodes strategy returned at least 5
listings. -/
def searchLoop {α : Type} : List (StrategyName × Except Unit (List α)) → List α
  | [] => []
  | (_, Except.error _) :: rest => searchLoop rest
  | (nm, Except.ok listings) :: rest =>
    if listings.isEmpty then searchLoop rest
    else
      listings ++
        (if nm = StrategyName.distributedNodes ∧ 5 ≤ listings.length then []
         else searchLoop rest)

/-- `SmartFacebookScraper.search`, with each strategy's outcome (result list
or raised exception) supplied as an oracle. -/
def smartSearch {α : Type} (distributed craigslist mock : Except Unit (List α)) : List α :=
  searchLoop
    [(StrategyName.distributedNodes, distributed),
     (StrategyName.craigslistFallback, craigslist),
     (StrategyName.mockData, mock)]

/-- Search parameters consulted by `_try_mock_data` (`search_params.get`). -/
structure SearchParams where
  make : Option String := none
  model : Option String := none
  location : Option String := none
deriving DecidableEq, Repr

/-- One listing produced by `_try_mock_data`. -/
structure ScraperMockListing where
  id : String
  title : String
  price : ℤ
  url : String
  location : String
  source : String
  imageUrl : Option String
  mileage : ℤ
  year : ℤ
deriving DecidableEq, Repr

/-- The gate of `_try_mock_data`:
`os.getenv('USE_MOCK_DATA', 'false').lower() != 'true'` returns `[]`.
An environment is a partial map from variable names to values. -/
def scraperEnvMockFlag (env : String → Option String) : Bool :=
  lowerStr ((env "USE_MOCK_DATA").getD "false") == "true"

/-- `SmartFacebookScraper._try_mock_data`.  `time.time()` and the
`random.randint` draws are the oracle arguments `t`, `randPrice`,
`randMileage`, `randYear`. -/
def tryMockData (env : String → Option String) (params : SearchParams) (t : ℤ)
    (randPrice randMileage randYear : ℕ → ℤ) : List ScraperMockListing :=
  if scraperEnvMockFlag env = false then []
  else
    (List.range 5).map fun i =>
      { id := "mock_" ++ toString t ++ "_" ++ toString i
        title := "2020 " ++ params.make.getD "Toyota" ++ " " ++ params.model.getD "Camry"
        price := randPrice i
        url := "https://example.com/mock/" ++ toString i
        location := params.location.getD "Miami"
        source := "mock"
        imageUrl := none
        mileage := randMileage i
        year := randYear i }

/-! ## `api_server.py` and `database.py` -/

/-- `USE_MOCK_DATA = os.getenv("USE_MOCK_DATA", "true").lower() == "true"`
(note the `"true"` default, unlike the scraper-side gate). -/
def apiUseMockData (env : String → Option String) : Bool :=
  lowerStr ((env "USE_MOCK_DATA").getD "true") == "true"

/-- A car-listing dict as it flows through `api_server.py`: raw extracted
fields plus the enrichment keys `value_estimate` / `deal_score` /
`has_analysis` added by `enhance_car_listing_with_values`.  `title` and
`price` are present on every listing the pipeline builds; optional dict keys
are `Option`s.  (`scraped_at`, consumed nowhere downstream, is omitted.) -/
structure Car where
  id : Option String := none
  title : String
  price : String
  year : Option String := none
  make : Option String := none
  model : Option String := none
  mileage : Option String := none
  url : Option String := none
  location : Option String := none
  source : Option String := none
  fuelType : Option String := none
  transmission : Option String := none
  bodyStyle : Option String := none
  color : Option String := none
  valueEstimate : Option ValueEstimate := none
  dealScore : Option DealScore := none
  hasAnalysis : Bool := false
deriving DecidableEq, Repr

/-- `kbb_value_estimator.enhance_car_listing_with_values` (the `estimator`
argument is the module-level `KBBValueEstimator`; `currentYear` models its
`datetime.now().year` read).  A `ZeroDivisionError` raised by
`calculate_deal_score` is caught by the surrounding `except`, leaving
`has_analysis = False`. -/
def enhanceCarListing (currentYear : ℤ) (listing : Car) : Car :=
  let year : Option ℤ :=
    match listing.year with
    | some ys => if ys ≠ "" then parseIntStr ys else none
    | none => none
  let mileage : Option ℤ :=
    match listing.mileage with
    | some ms =>
      if ms ≠ "" then parseIntStr (replaceStr (replaceStr (replaceStr ms "," "") " miles" "") "miles" "")
      else none
    | none => none
  let price : Option ℤ :=
    if listing.price ≠ "" then parseIntStr (replaceStr (replaceStr listing.price "$" "") "," "")
    else none
  let mk := listing.make.getD ""
  let mk :=
    if mk = "" ∧ listing.title ≠ "" then
      (["honda", "toyota", "ford", "chevrolet", "nissan", "mazda"].find?
        (fun b => strContains (lowerStr listing.title) b)).getD ""
    else mk
  let md := listing.model.getD ""
  match year, price with
  | some y, some p =>
    if mk ≠ "" ∧ y ≠ 0 ∧ p ≠ 0 then
      let est := estimateValue currentYear mk (if md = "" then "unknown" else md) y mileage "good"
      match calculateDealScore (p : ℚ) est with
      | some ds =>
        { listing with valueEstimate := some est, dealScore := some ds, hasAnalysis := true }
      | none => { listing with hasAnalysis := false }
    else { listing with hasAnalysis := false }
  | _, _ => { listing with hasAnalysis := false }

/-- A row of the `car_listings` table, as inserted by
`enhanced_save_car_listings`. -/
structure CarListingRow where
  searchId : ℕ
  title : String
  price : String
  year : Option String
  mileage : Option String
  url : Option String
  fuelType : Option String
  transmission : Option String
  bodyStyle : Option String
  color : Option String
  dealScore : Option ℕ
deriving DecidableEq, Repr

/-- A row of the `deal_scores` table (the JSONB blob and timestamp carry no
information the claims touch and are omitted). -/
structure DealScoreRow where
  listingId : ℕ
  marketPriceEstimate : ℤ
  dealScore : ℕ
deriving DecidableEq, Repr

/-- A row of the `price_history` table. -/
structure PriceHistoryRow where
  make : Option String
  model : Option String
  year : Option ℤ
  location : Option String
  price : ℤ
  mileage : Option ℤ
deriving DecidableEq, Repr

/-- A row of the `car_searches` table (the columns
`enhanced_save_car_listings` selects). -/
structure SearchRow where
  id : ℕ
  make : Option String
  model : Option String
  location : Option String
deriving DecidableEq, Repr

/-- The database state the persistence claims touch. -/
structure DB where
  searches : List SearchRow
  listings : List CarListingRow
  dealScores : List DealScoreRow
  priceHistory : List PriceHistoryRow
deriving DecidableEq, Repr

/-- The `search_make` / `search_model` defaulting at the top of the save
loop body: `if not car.get('make') and search_make: car['make'] = search_make`
and likewise for the model. -/
def fillFromSearch (searchInfo : Option SearchRow) (car : Car) : Car :=
  let sMake := match searchInfo with | some s => s.make | none => none
  let sModel := match searchInfo with | some s => s.model | none => none
  let car :=
    if (car.make.getD "") = "" ∧ (sMake.getD "") ≠ "" then { car with make := sMake } else car
  if (car.model.getD "") = "" ∧ (sModel.getD "") ≠ "" then { car with model := sModel } else car

/-- The tuple inserted into `car_listings` for one (already enriched) car. -/
def listingRowOf (searchId : ℕ) (car : Car) : CarListingRow :=
  { searchId := searchId
    title := car.title
    price := car.price
    year := car.year
    mileage := car.mileage
    url := car.url
    fuelType := car.fuelType
    transmission := car.transmission
    bodyStyle := car.bodyStyle
    color := car.color
    dealScore := if car.hasAnalysis then car.dealScore.map DealScore.score else none }

/-- The `deal_scores` insert for one enriched car, performed under
`if car.get('has_analysis') and car.get('value_estimate'):` (enrichment sets
both keys together). -/
def dealRowOf (nextId : ℕ) (car : Car) : Option DealScoreRow :=
  if car.hasAnalysis then
    match car.valueEstimate, car.dealScore with
    | some est, some ds =>
      some { listingId := nextId, marketPriceEstimate := est.values.privateParty,
             dealScore := ds.score }
    | _, _ => none
  else none

/-- Does a fallible insert of an optional row fail? -/
def optFails {β : Type} (fails : β → Bool) : Option β → Bool
  | some x => fails x
  | none => false

/-- The price-history row for one car, inserted only under
`if search_info and price_num:`. -/
def phRowOf (searchInfo : Option SearchRow) (car : Car) : Option PriceHistoryRow :=
  let sMake := match searchInfo with | some s => s.make | none => none
  let sModel := match searchInfo with | some s => s.model | none => none
  let priceNum := digitsOnlyVal (replaceStr (replaceStr car.price "$" "") "," "")
  let yearNum := digitsOnlyVal (car.year.getD "")
  let mileageNum :=
    digitsOnlyVal (replaceStr (replaceStr (car.mileage.getD "") "," "") " miles" "")
  match searchInfo, priceNum with
  | some si, some p =>
    if p ≠ 0 then
      some { make := sMake, model := sModel, year := yearNum,
             location := si.location, price := p, mileage := mileageNum }
    else none
  | _, _ => none

/-- The price-history insert sits in its own `try/except`: a failing insert
raises a Python exception that the `except` swallows, but the failed SQL
statement leaves the enclosing PostgreSQL transaction in the aborted state.
Returns the rows this statement executed and whether the transaction is now
aborted. -/
def phInsert (fails : PriceHistoryRow → Bool) :
    Option PriceHistoryRow → List PriceHistoryRow × Bool
  | some pr => if fails pr then ([], true) else ([pr], false)
  | none => ([], false)

/-- One iteration of the `for car in cars` loop of
`enhanced_save_car_listings`: default make/model from the search row, enrich,
insert the listing row (uncaught exception on failure), insert the deal-score
row (uncaught exception on failure), then attempt the price-history insert,
whose Python exception is swallowed but whose SQL failure aborts the
transaction (the trailing `Bool` of the `phInsert` pair). -/
def processCar (currentYear : ℤ) (failsL : CarListingRow → Bool) (failsD : DealScoreRow → Bool)
    (failsP : PriceHistoryRow → Bool) (searchInfo : Option SearchRow) (searchId nextId : ℕ)
    (car : Car) :
    Except Unit (CarListingRow × Option DealScoreRow × List PriceHistoryRow × Bool) :=
  let car := enhanceCarListing currentYear (fillFromSearch searchInfo car)
  let row := listingRowOf searchId car
  if failsL row then Except.error ()
  else
    let dealRowOpt := dealRowOf nextId car
    if optFails failsD dealRowOpt then Except.error ()
    else Except.ok (row, dealRowOpt, phInsert failsP (phRowOf searchInfo car))

/-- The whole loop of `enhanced_save_car_listings`, run inside one
`get_db_cursor` transaction; collects the rows each iteration executed, or
the first uncaught failure.  Once the transaction is aborted (a swallowed
price-history failure), every later `cursor.execute` — the next car's
listing insert — raises `InFailedSqlTransaction`, which nothing catches;
an abort on the last car instead reaches the terminal commit (see
`enhancedSaveCarListings`).  `nextId` models the `RETURNING id` serial. -/
def saveBody (currentYear : ℤ) (failsL : CarListingRow → Bool) (failsD : DealScoreRow → Bool)
    (failsP : PriceHistoryRow → Bool) (searchInfo : Option SearchRow) (searchId : ℕ) :
    ℕ → Bool → List Car →
      Except Unit (Bool × List CarListingRow × List DealScoreRow × List PriceHistoryRow)
  | _, aborted, [] => Except.ok (aborted, [], [], [])
  | nextId, aborted, car :: rest =>
    if aborted then Except.error ()
    else
      match processCar currentYear failsL failsD failsP searchInfo searchId nextId car with
      | Except.error e => Except.error e
      | Except.ok (row, dealRowOpt, phRows, phAborted) =>
        match saveBody currentYear failsL failsD failsP searchInfo searchId (nextId + 1)
            phAborted rest with
        | Except.ok (aborted', ls, ds, ps) =>
          Except.ok (aborted', row :: ls, dealRowOpt.toList ++ ds, phRows ++ ps)
        | Except.error e => Except.error e

/-- `enhanced_save_car_listings` under the `get_db_cursor` context manager of
`database.py`: on an uncaught exception the connection is rolled back
(database unchanged) and the exception re-raised — the returned `Bool` is
that re-raise; if the loop finishes with the transaction aborted (a swallowed
price-history failure on the last car), the terminal `connection.commit()` of
the aborted transaction is executed by the server as a rollback, committing
nothing and raising nothing; only a clean run commits its rows. -/
def enhancedSaveCarListings (currentYear : ℤ) (failsL : CarListingRow → Bool)
    (failsD : DealScoreRow → Bool) (failsP : PriceHistoryRow → Bool) (db : DB)
    (searchId : ℕ) (cars : List Car) : DB × Bool :=
  let searchInfo := db.searches.find? (fun s => s.id == searchId)
  match saveBody currentYear failsL failsD failsP searchInfo searchId db.listings.length
      false cars with
  | Except.ok (true, _, _, _) => (db, false)
  | Except.ok (false, ls, ds, ps) =>
    ({ db with
        listings := db.listings ++ ls
        dealScores := db.dealScores ++ ds
        priceHistory := db.priceHistory ++ ps }, false)
  | Except.error _ => (db, true)

/-- The search-config keys `get_mock_cars` consults. -/
structure MonitorConfig where
  make : Option String := none
  model : Option String := none
  location : Option String := none
  priceMax : Option ℤ := none
  yearMin : Option ℤ := none
deriving DecidableEq, Repr

/-- `api_server.get_mock_cars`: three fixed mock cars (ids built from
`time.time()` and `random.randint` draws, supplied as `t`, `r1`–`r3`),
price/year filters, then `enhance_car_listing_with_values` over each. -/
def getMockCars (currentYear : ℤ) (t r1 r2 r3 : ℤ) (cfg : MonitorConfig) : List Car :=
  let mk := cfg.make.getD "Toyota"
  let md := cfg.model.getD "Camry"
  let loc := cfg.location.getD "Miami, FL"
  let base : List Car :=
    [{ id := some ("mock_" ++ toString t ++ "_" ++ toString r1)
       title := "2021 " ++ mk ++ " " ++ md ++ " LE - Excellent Condition"
       price := "$19,500", year := some "2021", make := some mk, model := some md
       mileage := some "25,000 miles"
       url := some "https://facebook.com/marketplace/item/mock1"
       location := some loc, source := some "mock_data"
       fuelType := some "Gasoline", transmission := some "Automatic" },
     { id := some ("mock_" ++ toString t ++ "_" ++ toString r2)
       title := "2019 " ++ mk ++ " " ++ md ++ " XLE - Low Miles"
       price := "$15,900", year := some "2019", make := some mk, model := some md
       mileage := some "38,000 miles"
       url := some "https://facebook.com/marketplace/item/mock2"
       location := some loc, source := some "mock_data"
       fuelType := some "Gasoline", transmission := some "Automatic" },
     { id := some ("mock_" ++ toString t ++ "_" ++ toString r3)
       title := "2020 " ++ mk ++ " " ++ md ++ " SE - One Owner"
       price := "$14,500", year := some "2020", make := some mk, model := some md
       mileage := some "42,000 miles"
       url := some "https://facebook.com/marketplace/item/mock3"
       location := some loc, source := some "mock_data"
       fuelType := some "Hybrid", transmission := some "CVT" }]
  let base :=
    match cfg.priceMax with
    | some pm =>
      if pm ≠ 0 then
        base.filter fun (c : Car) =>
          ((parseIntStr (replaceStr (replaceStr c.price "$" "") "," "")).getD 0) ≤ pm
      else base
    | none => base
  let base :=
    match cfg.yearMin with
    | some ym =>
      if ym ≠ 0 then
        base.filter (fun (c : Car) => ym ≤ ((parseIntStr (c.year.getD "0")).getD 0))
      else base
    | none => base
  base.map (enhanceCarListing currentYear)

/-- The mock-data decision inside `run_continuous_monitoring`:
`if not new_cars and USE_MOCK_DATA: new_cars = get_mock_cars(...)`; the
resulting list is what `enhanced_save_car_listings` then receives (it is
saved iff non-empty). -/
def monitoringCycleCars (useMock : Bool) (realCars mockCars : List Car) : List Car :=
  if realCars.isEmpty ∧ useMock then mockCars else realCars

/-- Spec-side fingerprint of a stored listing row: title plus normalized
price (the `$`/`,`-free price string). -/
def normPrice (price : String) : String := replaceStr (replaceStr price "$" "") "," ""

/-- Number of persisted `car_listings` rows of one search carrying a given
fingerprint. -/
def fpCount (db : DB) (searchId : ℕ) (fp : String × String) : ℕ :=
  (db.listings.filter
    (fun r => r.searchId == searchId && r.title == fp.1 && normPrice r.price == fp.2)).length

/-! ## Proof helpers and concrete instances used by the theorems below -/

/-- Product of the `(1 - rate)` factors for loop years `y, y+1, …, y+r-1`
(relates the depreciation loop to the spec-side schedule). -/
def ratesProd (y : ℕ) : ℕ → ℚ
  | 0 => 1
  | r + 1 => (1 - rateForYear y) * ratesProd (y + 1) r

/-- A concrete value estimate (shape of `estimate_value` output) with a
positive private-party value. -/
def estSample : ValueEstimate :=
  { values := { tradeIn := 17000, privateParty := 20000, dealerRetail := 23000,
                certifiedPreowned := 24000 }
    confidence := "high"
    marketInsights := { demand := "average", depreciationRate := "normal",
                        bestTimeToBuy := "now", notes := [] }
    disclaimer := disclaimerText }

/-- A candidate listing whose title matches none of the make-extraction
brands, so enrichment attaches no analysis. -/
def carTesla : Car :=
  { title := "2021 Tesla Model 3 - Clean", price := "$19,500",
    year := some "2021", mileage := some "30,000 miles" }

/-- A database holding one saved search and no listings. -/
def dbOneSearch : DB :=
  { searches := [{ id := 1, make := none, model := none, location := some "Miami, FL" }]
    listings := [], dealScores := [], priceHistory := [] }

/-- Insert oracles: no failing inserts. -/
def noFailL : CarListingRow → Bool := fun _ => false

/-- Insert oracle: no failing deal-score inserts. -/
def noFailD : DealScoreRow → Bool := fun _ => false

/-- Insert oracle: no failing price-history inserts. -/
def noFailP : PriceHistoryRow → Bool := fun _ => false

/-- Insert oracle: every price-history insert fails. -/
def allFailP : PriceHistoryRow → Bool := fun _ => true

/-- The database after two consecutive polls that each saved the same
candidate for search 1. -/
def dbAfterTwoPolls : DB :=
  (enhancedSaveCarListings 2024 noFailL noFailD noFailP
    ((enhancedSaveCarListings 2024 noFailL noFailD noFailP dbOneSearch 1 [carTesla]).1)
    1 [carTesla]).1

/-- An empty process environment: every variable unset, so every
`os.getenv` read returns its default. -/
def envDefault : String → Option String := fun _ => none

/-- A monitoring search config with no optional keys set. -/
def cfgEmpty : MonitorConfig := {}

/-- An extracted candidate whose text scores positively but whose price is
missing. -/
def fbNoPriceListing : FBListing :=
  { title := "honda civic sedan", price := "", location := "Miami, FL" }

/-- A one-node client whose single node is cooling down until time 100. -/
def stCooled : ClientState :=
  { nodes := [{ id := "n1" }], currentNodeIndex := 0,
    nodeCooldowns := fun s => if s = "n1" then some 100 else none }

/-- A scrape oracle (never consulted in the all-cooled scenario). -/
def scrapeNothing : Node → ClientState → List ℕ × ClientState := fun _ st => ([], st)

/-! ## Theorems

### C8 — depreciation schedule and floor -/

theorem depLoop_eq_ratesProd (r : ℕ) : ∀ (v : ℚ) (y : ℕ), depLoop v y r = v * ratesProd y r := by
  induction r with
  | zero => intro v y; simp [depLoop, ratesProd]
  | succ k ih => intro v y; rw [depLoop, ratesProd, ih]; ring

theorem ratesProd_succ_right (r : ℕ) :
    ∀ y : ℕ, ratesProd y (r + 1) = ratesProd y r * (1 - rateForYear (y + r)) := by
  induction r with
  | zero => intro y; simp [ratesProd]
  | succ k ih =>
    intro y
    rw [ratesProd, ih (y + 1), ratesProd]
    rw [show y + 1 + k = y + (k + 1) by omega]
    ring

theorem rateForYear_eq_spec (y : ℕ) (hy : 1 ≤ y) : rateForYear y = specDepRate y := by
  by_cases h5 : y ≤ 5
  · interval_cases y <;> norm_num [rateForYear, depreciationRates, specDepRate]
  · rw [rateForYear, if_neg h5, specDepRate]
    rw [if_neg (by omega), if_neg (by omega), if_neg (by omega), if_neg (by omega),
      if_neg (by omega)]
    norm_num [depreciationRates]

theorem ratesProd_one_eq_specFactor (n : ℕ) : ratesProd 1 n = specFactor n := by
  induction n with
  | zero => rfl
  | succ k ih =>
    rw [ratesProd_succ_right, ih, specFactor, rateForYear_eq_spec (1 + k) (by omega),
      show 1 + k = k + 1 by omega]

/-- C8.  For every base price `b ≥ 0` and vehicle age `a ≥ 0`,
`_apply_depreciation` returns exactly the maximum of (i) `b` compounded
through the fixed per-year schedule (20 %, 15 %, 10 %, 8 %, then 7 % for
year 5 and every later year) and (ii) one tenth of `b`; in particular the
result is never less than 10 % of `b`. -/
theorem applyDepreciation_schedule_and_floor (b : ℚ) (a : ℤ) (_hb : 0 ≤ b) (_ha : 0 ≤ a) :
    applyDepreciation b a = max (specCompounded b a.toNat) (b / 10) ∧
    b / 10 ≤ applyDepreciation b a := by
  have h1 : depLoop b 1 a.toNat = specCompounded b a.toNat := by
    rw [depLoop_eq_ratesProd, ratesProd_one_eq_specFactor, specCompounded]
  constructor
  · rw [applyDepreciation, h1, show b * (10 / 100) = b / 10 by ring]
  · rw [applyDepreciation, show b / 10 = b * (10 / 100) by ring]
    exact le_max_right _ _

/-- C8 witness: the theorem applied to base price 27000 and age 6. -/
theorem applyDepreciation_schedule_and_floor_witness :
    (applyDepreciation 27000 6 = max (specCompounded 27000 (6 : ℤ).toNat) (27000 / 10) ∧
      (27000 : ℚ) / 10 ≤ applyDepreciation 27000 6) :=
  applyDepreciation_schedule_and_floor 27000 6 (by decide) (by decide)

/-! ### C2 — deal-score boundaries -/

/-- C2.  For every estimate with a positive private-party value: a listing
priced exactly at the private-party estimate (percent difference 0) scores
65, the "fair" band of the step function — not the top band (95) and not the
bottom band (20); a listing priced 25 % below the estimate scores 95, the top
band; and for every listing price the score is exactly the fixed step
function of the percent difference (≥20 % → 95, ≥10 % → 85, ≥5 % → 75,
≥0 % → 65, then 50 / 35 / 20 on the negative bands). -/
theorem calculateDealScore_boundary (est : ValueEstimate)
    (hpp : 0 < est.values.privateParty) :
    (calculateDealScore (est.values.privateParty : ℚ) est).map DealScore.score = some 65 ∧
    (calculateDealScore ((75 / 100) * (est.values.privateParty : ℚ)) est).map DealScore.score
      = some 95 ∧
    (65 : ℕ) ≠ 95 ∧ (65 : ℕ) ≠ 20 ∧
    ∀ p : ℚ, (calculateDealScore p est).map DealScore.score =
      some (specDealStep (((est.values.privateParty : ℚ) - p) / (est.values.privateParty : ℚ)
        * 100)) := by
  have hne : est.values.privateParty ≠ 0 := ne_of_gt hpp
  have hq : (est.values.privateParty : ℚ) ≠ 0 := Int.cast_ne_zero.mpr hne
  have hstep : ∀ p : ℚ, (calculateDealScore p est).map DealScore.score =
      some (specDealStep (((est.values.privateParty : ℚ) - p) / (est.values.privateParty : ℚ)
        * 100)) := by
    intro p
    simp only [calculateDealScore, if_neg hne, Option.map_some', specDealStep]
  refine ⟨?_, ?_, by decide, by decide, hstep⟩
  · rw [hstep]
    have h0 : ((est.values.privateParty : ℚ) - (est.values.privateParty : ℚ))
        / (est.values.privateParty : ℚ) * 100 = 0 := by
      rw [sub_self, zero_div, zero_mul]
    rw [h0]
    norm_num [specDealStep]
  · rw [hstep]
    have h25 : ((est.values.privateParty : ℚ) - 75 / 100 * (est.values.privateParty : ℚ))
        / (est.values.privateParty : ℚ) * 100 = 25 := by
      field_simp
      ring
    rw [h25]
    norm_num [specDealStep]

/-- C2 witness: the theorem applied to a concrete estimate with
private-party value 20000. -/
theorem calculateDealScore_boundary_witness :
    (calculateDealScore (estSample.values.privateParty : ℚ) estSample).map DealScore.score
      = some 65 ∧
    (calculateDealScore ((75 / 100) * (estSample.values.privateParty : ℚ)) estSample).map
      DealScore.score = some 95 ∧
    (65 : ℕ) ≠ 95 ∧ (65 : ℕ) ≠ 20 ∧
    ∀ p : ℚ, (calculateDealScore p estSample).map DealScore.score =
      some (specDealStep (((estSample.values.privateParty : ℚ) - p)
        / (estSample.values.privateParty : ℚ) * 100)) :=
  calculateDealScore_boundary estSample (by decide)

/-! ### C9 — valuation determinism and average-mileage neutrality -/

theorem applyMileage_avg (d : ℚ) (a : ℤ) :
    applyMileage d a (some (a * 12000)) = applyMileage d a none := by
  by_cases h : a * 12000 = 0
  · simp [applyMileage, h]
  · simp only [applyMileage, if_neg h]
    push_cast
    ring

theorem adjustedValue_avg (cy yr : ℤ) (mkL mdL : String) :
    adjustedValue cy yr mkL mdL (some ((cy - yr) * 12000)) = adjustedValue cy yr mkL mdL none := by
  rw [adjustedValue, adjustedValue, applyMileage_avg]

/-- C9.  `estimate_value` is a pure function of its inputs (with the
source's `datetime.now().year` read made the explicit `currentYear`
argument): two calls with identical arguments give identical output; and a
call whose mileage equals the expected average mileage (vehicle age times
12000 miles per year) returns exactly the output of a call with no mileage
given, i.e. the mileage adjustment is the identity there. -/
theorem estimateValue_deterministic (cy : ℤ) (mk md : String) (yr : ℤ)
    (mileage : Option ℤ) (cond : String) :
    estimateValue cy mk md yr mileage cond = estimateValue cy mk md yr mileage cond ∧
    estimateValue cy mk md yr (some ((cy - yr) * 12000)) cond
      = estimateValue cy mk md yr none cond :=
  ⟨rfl, by simp only [estimateValue, adjustedValue_avg]⟩

/-! ### C10 — deal scoring is not total on the estimator's own outputs -/

/-- C10 counterexample: `estimate_value` for a 2020 Toyota Camry (current
year 2026) with mileage 272000 yields private-party value exactly 0, and
`calculate_deal_score` on that estimate divides by zero (`none` here,
`ZeroDivisionError` in the source) — refuting the claim that deal scoring
never raises on estimates produced by `estimate_value`. -/
theorem calculateDealScore_divByZero_cex :
    (estimateValue 2026 "Toyota" "Camry" 2020 (some 272000) "good").values.privateParty = 0 ∧
    calculateDealScore 5000 (estimateValue 2026 "Toyota" "Camry" 2020 (some 272000) "good")
      = none := by
  have hm : ∀ d : ℚ, applyMileage d 6 (some 272000) = 0 := by
    intro d
    rw [applyMileage]
    norm_num
  have hadj : adjustedValue 2026 2020 (lowerStr "Toyota") (lowerStr "Camry") (some 272000) = 0 := by
    rw [adjustedValue, show (2026 - 2020 : ℤ) = 6 by norm_num]
    exact hm _
  have hpp : (estimateValue 2026 "Toyota" "Camry" 2020 (some 272000) "good").values.privateParty
      = 0 := by
    simp only [estimateValue, hadj]
    norm_num [conditionMultipliers, truncQ]
  exact ⟨hpp, by simp [calculateDealScore, hpp]⟩

/-- C10 amended: `calculate_deal_score` returns a result exactly when the
estimate's private-party value is nonzero; it divides by zero (raises)
exactly on private-party value 0, which `estimate_value` can produce for
sufficiently high mileage (see the counterexample). -/
theorem calculateDealScore_some_iff (p : ℚ) (est : ValueEstimate) :
    (calculateDealScore p est).isSome = true ↔ est.values.privateParty ≠ 0 := by
  by_cases h : est.values.privateParty = 0 <;> simp [calculateDealScore, h]

/-! ### C4 — all workers cooled down: empty result, no state mutation -/

theorem getNextAux_allCooled (nodes : List Node) (cds : String → Option ℤ) (now : ℤ)
    (h : ∀ n ∈ nodes, ∃ cu, cds n.id = some cu ∧ now < cu) :
    ∀ (r idx : ℕ), idx < nodes.length →
      getNextAux nodes cds now idx r = (none, (idx + r) % nodes.length) := by
  intro r
  induction r with
  | zero => intro idx hidx; simp [getNextAux, Nat.mod_eq_of_lt hidx]
  | succ k ih =>
    intro idx hidx
    have hpos : 0 < nodes.length := by omega
    have hget : nodes.get? idx = some (nodes.get ⟨idx, hidx⟩) := List.get?_eq_get hidx
    obtain ⟨cu, hcd, hlt⟩ := h (nodes.get ⟨idx, hidx⟩) (nodes.get_mem _ _)
    rw [getNextAux, hget]
    simp only [hcd, if_pos hlt]
    rw [ih ((idx + 1) % nodes.length) (Nat.mod_lt _ hpos), Nat.mod_add_mod]
    congr 2
    omega

/-- C4.  When every node is cooling down at call time (and the round-robin
index is in range, as the client maintains), `get_next_available_node`
returns `None` and leaves the client state exactly as it was — the cooldown
map is untouched and the round-robin index, advanced once per attempt and
wrapped modulo the node count, ends where it started — and the
distributed-nodes strategy therefore returns the empty list without touching
the state. -/
theorem allCooled_returns_empty {α : Type} (scrape : Node → ClientState → List α × ClientState)
    (st : ClientState) (now : ℤ)
    (hidx : st.currentNodeIndex < st.nodes.length ∨ st.nodes = [])
    (hcool : ∀ n ∈ st.nodes, ∃ cu, st.nodeCooldowns n.id = some cu ∧ now < cu) :
    getNextAvailableNode st now = (none, st) ∧ tryDistributedNodes scrape st now = ([], st) := by
  have hmain : getNextAvailableNode st now = (none, st) := by
    rcases hidx with h | h
    · rw [getNextAvailableNode,
        getNextAux_allCooled st.nodes st.nodeCooldowns now hcool st.nodes.length
          st.currentNodeIndex h]
      rw [Nat.add_mod_right, Nat.mod_eq_of_lt h]
    · have hlen : st.nodes.length = 0 := by rw [h]; rfl
      rw [getNextAvailableNode, hlen]
      rfl
  exact ⟨hmain, by rw [tryDistributedNodes, hmain]⟩

/-- C4 witness: the theorem applied to a one-node client whose node cools
down until time 100, queried at time 50. -/
theorem allCooled_returns_empty_witness :
    getNextAvailableNode stCooled 50 = (none, stCooled) ∧
    tryDistributedNodes scrapeNothing stCooled 50 = ([], stCooled) :=
  allCooled_returns_empty scrapeNothing stCooled 50 (Or.inl (by decide))
    (by
      intro n hn
      simp only [stCooled, List.mem_singleton] at hn
      subst hn
      exact ⟨100, rfl, by decide⟩)

/-! ### C3 — fetch-chain short-circuit versus merging -/

/-- C3 counterexample: the distributed strategy returns a non-empty,
validated result (one listing), yet the later mock strategy's listing is
still appended — the loop does not stop at the first non-empty strategy. -/
theorem smartSearch_shortCircuit_cex :
    smartSearch (Except.ok [(0 : ℕ)]) (Except.ok []) (Except.ok [1]) = [0, 1] ∧
    smartSearch (Except.ok [(0 : ℕ)]) (Except.ok []) (Except.ok [1]) ≠ [0] := by decide

/-- C3 amended: the chain short-circuits only when the distributed-nodes
strategy returns at least 5 listings (then later strategies contribute
nothing); whenever it returns fewer than 5, the results of all three
strategies are concatenated in priority order (distributed, then the
secondary-source fallback, then the synthetic generator). -/
theorem smartSearch_merge {α : Type} (d c m : List α) :
    (5 ≤ d.length →
      ∀ craigslist mock : Except Unit (List α),
        smartSearch (Except.ok d) craigslist mock = d) ∧
    (d.length < 5 →
      smartSearch (Except.ok d) (Except.ok c) (Except.ok m) = d ++ c ++ m) := by
  constructor
  · intro h5 craigslist mock
    have hne : d ≠ [] := by
      intro hnil
      rw [hnil] at h5
      simp at h5
    simp [smartSearch, searchLoop, hne, h5]
  · intro h5
    have h5' : ¬ 5 ≤ d.length := Nat.not_le.mpr h5
    by_cases hd : d = [] <;> by_cases hc : c = [] <;> by_cases hm : m = [] <;>
      simp [smartSearch, searchLoop, hd, hc, hm, h5']

/-- C3 witness: the theorem applied twice — a 5-listing distributed result
short-circuits (even past a raising fallback), and a 1-listing distributed
result is merged with both later strategies. -/
theorem smartSearch_merge_witness :
    smartSearch (Except.ok [0, 1, 2, 3, 4]) (Except.error ()) (Except.ok [9]) = [0, 1, 2, 3, 4] ∧
    smartSearch (Except.ok [(7 : ℕ)]) (Except.ok [8]) (Except.ok [9]) = [7] ++ [8] ++ [9] :=
  ⟨(smartSearch_merge [0, 1, 2, 3, 4] [] []).1 (by decide) (Except.error ()) (Except.ok [9]),
   (smartSearch_merge [7] [8] [9]).2 (by decide)⟩

/-! ### C5 — per-candidate validation -/

theorem length_filter_pos_iff_any {α : Type} (p : α → Bool) (L : List α) :
    0 < (L.filter p).length ↔ L.any p = true := by
  rw [List.length_pos, ne_eq, List.filter_eq_nil_iff]
  push_neg
  simp [List.any_eq_true]

/-- C5 counterexample: a candidate whose text contains positive keywords
("honda", "sedan"; positive score 2 exceeds the negative score 0) but whose
price is missing is rejected by `_is_valid_car_listing` — so "kept iff
positive score exceeds negative score and is positive" fails on the code. -/
theorem isValidCarListing_cex :
    ¬ (isValidCarListing fbNoPriceListing = true ↔
        (negativeScore fbNoPriceListing < positiveScore fbNoPriceListing ∧
          0 < positiveScore fbNoPriceListing)) := by decide

/-- C5 amended: a candidate is kept iff its price and title are non-empty
and at least one positive keyword (vehicle indicator or brand name) occurs
in its lowercased title-plus-location text; the source defines no negative
keywords, so the negative score is identically zero and "positive exceeds
negative" degenerates to "positive score is nonzero". -/
theorem isValidCarListing_iff (l : FBListing) :
    isValidCarListing l = true ↔
      (l.price ≠ "" ∧ l.title ≠ "" ∧ negativeScore l < positiveScore l) := by
  rw [isValidCarListing, positiveScore, negativeScore]
  by_cases hp : l.price = ""
  · simp [hp]
  · by_cases ht : l.title = ""
    · simp [ht]
    · rw [if_neg (by tauto)]
      rw [length_filter_pos_iff_any, List.any_append]
      simp [hp, ht]

/-! ### C6 — synthetic-data gating -/

/-- C6 counterexample: with no environment variable set (the default,
normal-operation configuration), `api_server`'s `USE_MOCK_DATA` evaluates to
true (its default string is `"true"`), and the monitoring loop hands the
non-empty synthetic `get_mock_cars` batch to persistence whenever a search
found no real listings — refuting "no synthetic listings are ever produced
or persisted under default configuration".  (The scraper-side gate, whose
default is false, is shown disabled for contrast.) -/
theorem mockData_default_cex :
    apiUseMockData envDefault = true ∧
    scraperEnvMockFlag envDefault = false ∧
    monitoringCycleCars (apiUseMockData envDefault) [] (getMockCars 2024 0 0 0 0 cfgEmpty)
      = getMockCars 2024 0 0 0 0 cfgEmpty ∧
    getMockCars 2024 0 0 0 0 cfgEmpty ≠ [] := by
  have h1 : apiUseMockData envDefault = true := by decide
  refine ⟨h1, by decide, ?_, ?_⟩
  · simp [monitoringCycleCars, h1]
  · simp [getMockCars, cfgEmpty]

/-- C6 amended: the scraper's synthetic generator (`_try_mock_data`) indeed
contributes only when its `USE_MOCK_DATA` variable is explicitly `"true"`
(default `"false"`); but the monitoring pipeline in `api_server.py` has a
separate `USE_MOCK_DATA` flag defaulting to `"true"`, so under default
configuration it substitutes the synthetic `get_mock_cars` batch whenever a
search yields no real listings, and passes real listings through untouched
otherwise. -/
theorem mockData_gating (env : String → Option String) :
    (lowerStr ((env "USE_MOCK_DATA").getD "false") ≠ "true" →
      ∀ (params : SearchParams) (t : ℤ) (rp rm ry : ℕ → ℤ),
        tryMockData env params t rp rm ry = []) ∧
    (env "USE_MOCK_DATA" = none → apiUseMockData env = true) ∧
    (∀ realCars mockCars : List Car, realCars ≠ [] →
      monitoringCycleCars (apiUseMockData env) realCars mockCars = realCars) ∧
    (∀ mockCars : List Car, monitoringCycleCars true [] mockCars = mockCars) := by
  refine ⟨?_, ?_, ?_, ?_⟩
  · intro h params t rp rm ry
    rw [tryMockData, if_pos]
    rw [scraperEnvMockFlag]
    exact beq_eq_false_iff_ne.mpr h
  · intro h
    rw [apiUseMockData, h]
    decide
  · intro realCars mockCars h
    rw [monitoringCycleCars, if_neg]
    intro hcon
    exact h (List.isEmpty_iff.mp hcon.1)
  · intro mockCars
    rw [monitoringCycleCars, if_pos ⟨rfl, rfl⟩]

/-- C6 witness: the theorem applied to the empty environment and a concrete
real-listing batch. -/
theorem mockData_gating_witness :
    (∀ (params : SearchParams) (t : ℤ) (rp rm ry : ℕ → ℤ),
      tryMockData envDefault params t rp rm ry = []) ∧
    apiUseMockData envDefault = true ∧
    monitoringCycleCars (apiUseMockData envDefault) [carTesla] [] = [carTesla] ∧
    monitoringCycleCars true [] [carTesla] = [carTesla] :=
  ⟨(mockData_gating envDefault).1 (by decide),
   (mockData_gating envDefault).2.1 rfl,
   (mockData_gating envDefault).2.2.1 [carTesla] [] (by decide),
   (mockData_gating envDefault).2.2.2 [carTesla]⟩

/-! ### C1 / C7 — persistence: deduplication and batch atomicity -/

theorem optFails_all_false {β : Type} (fails : β → Bool) (h : ∀ x, fails x = false)
    (o : Option β) : optFails fails o = false := by
  cases o <;> simp [optFails, h]

theorem phInsert_noFail {fails : PriceHistoryRow → Bool} (h : ∀ r, fails r = false)
    (o : Option PriceHistoryRow) : phInsert fails o = (o.toList, false) := by
  cases o <;> simp [phInsert, h]

theorem phInsert_notAborted {fails : PriceHistoryRow → Bool} {o : Option PriceHistoryRow}
    {r : List PriceHistoryRow} (h : phInsert fails o = (r, false)) : r = o.toList := by
  cases o with
  | none => simp [phInsert] at h; simp [h]
  | some pr =>
    by_cases hf : fails pr = true
    · simp [phInsert, hf] at h
    · simp [phInsert, hf] at h; simp [h]

theorem fillFromSearch_title_price (si : Option SearchRow) (c : Car) :
    (fillFromSearch si c).title = c.title ∧ (fillFromSearch si c).price = c.price := by
  constructor <;> (simp only [fillFromSearch]; split <;> split <;> rfl)

theorem enhanceCarListing_title_price (cy : ℤ) (c : Car) :
    (enhanceCarListing cy c).title = c.title ∧ (enhanceCarListing cy c).price = c.price := by
  constructor <;> (simp only [enhanceCarListing]; repeat' split) <;> rfl

theorem processCar_ok (cy : ℤ) (fL : CarListingRow → Bool) (fD : DealScoreRow → Bool)
    (fP : PriceHistoryRow → Bool) (si : Option SearchRow) (sid nid : ℕ) (car : Car)
    (hL : ∀ r, fL r = false) (hD : ∀ r, fD r = false) :
    processCar cy fL fD fP si sid nid car =
      Except.ok (listingRowOf sid (enhanceCarListing cy (fillFromSearch si car)),
        dealRowOf nid (enhanceCarListing cy (fillFromSearch si car)),
        phInsert fP (phRowOf si (enhanceCarListing cy (fillFromSearch si car)))) := by
  simp [processCar, hL, optFails_all_false fD hD]

theorem processCar_ok_inv (cy : ℤ) (fL : CarListingRow → Bool) (fD : DealScoreRow → Bool)
    (fP : PriceHistoryRow → Bool) (si : Option SearchRow) (sid nid : ℕ) (car : Car)
    (row : CarListingRow) (dOpt : Option DealScoreRow) (phR : List PriceHistoryRow)
    (phA : Bool)
    (h : processCar cy fL fD fP si sid nid car = Except.ok (row, dOpt, phR, phA)) :
    row = listingRowOf sid (enhanceCarListing cy (fillFromSearch si car)) ∧
    dOpt = dealRowOf nid (enhanceCarListing cy (fillFromSearch si car)) ∧
    phInsert fP (phRowOf si (enhanceCarListing cy (fillFromSearch si car))) = (phR, phA) := by
  simp only [processCar] at h
  split at h
  · exact absurd h (by simp)
  · split at h
    · exact absurd h (by simp)
    · simp only [Except.ok.injEq, Prod.mk.injEq] at h
      obtain ⟨h1, h2, h3⟩ := h
      exact ⟨h1.symm, h2.symm, h3⟩

theorem saveBody_single (cy : ℤ) (fL : CarListingRow → Bool) (fD : DealScoreRow → Bool)
    (fP : PriceHistoryRow → Bool) (si : Option SearchRow) (sid nid : ℕ) (car : Car)
    (hL : ∀ r, fL r = false) (hD : ∀ r, fD r = false) (hP : ∀ r, fP r = false) :
    saveBody cy fL fD fP si sid nid false [car] =
      Except.ok (false, [listingRowOf sid (enhanceCarListing cy (fillFromSearch si car))],
        (dealRowOf nid (enhanceCarListing cy (fillFromSearch si car))).toList,
        (phRowOf si (enhanceCarListing cy (fillFromSearch si car))).toList) := by
  rw [saveBody, processCar_ok cy fL fD fP si sid nid car hL hD, phInsert_noFail hP]
  simp [saveBody]

theorem save_single_fpCount (cy : ℤ) (fL : CarListingRow → Bool) (fD : DealScoreRow → Bool)
    (fP : PriceHistoryRow → Bool) (db : DB) (sid : ℕ) (car : Car)
    (hL : ∀ r, fL r = false) (hD : ∀ r, fD r = false) (hP : ∀ r, fP r = false) :
    fpCount ((enhancedSaveCarListings cy fL fD fP db sid [car]).1) sid
        (car.title, normPrice car.price)
      = fpCount db sid (car.title, normPrice car.price) + 1 := by
  have hsb := saveBody_single cy fL fD fP (db.searches.find? (fun s => s.id == sid)) sid
    db.listings.length car hL hD hP
  have ht : (listingRowOf sid (enhanceCarListing cy
      (fillFromSearch (db.searches.find? (fun s => s.id == sid)) car))).title = car.title := by
    rw [listingRowOf]
    rw [(enhanceCarListing_title_price _ _).1, (fillFromSearch_title_price _ _).1]
  have hp : (listingRowOf sid (enhanceCarListing cy
      (fillFromSearch (db.searches.find? (fun s => s.id == sid)) car))).price = car.price := by
    rw [listingRowOf]
    rw [(enhanceCarListing_title_price _ _).2, (fillFromSearch_title_price _ _).2]
  simp only [enhancedSaveCarListings, hsb]
  simp only [fpCount, List.filter_append, List.length_append]
  congr 1
  rw [List.filter, ht, hp]
  simp [listingRowOf]

/-- C1 counterexample: the same candidate observed and saved in two
consecutive polls of search 1 yields two persisted `car_listings` rows
with the same fingerprint (title, normalized price) — not exactly one:
the pipeline performs no deduplication. -/
theorem dedup_cex :
    fpCount dbAfterTwoPolls 1 (carTesla.title, normPrice carTesla.price) = 2 ∧
    fpCount dbAfterTwoPolls 1 (carTesla.title, normPrice carTesla.price) ≠ 1 := by decide

/-- C1 amended: there is no deduplication.  Each committed save inserts one
`car_listings` row per candidate, so the same candidate observed in two
consecutive polls of the same search, each poll saving with no failing
insert, produces exactly two persisted rows carrying its fingerprint (title
plus normalized price) — the fingerprint count grows by two, not one. -/
theorem save_no_dedup (cy : ℤ) (fL : CarListingRow → Bool) (fD : DealScoreRow → Bool)
    (fP : PriceHistoryRow → Bool) (db : DB) (sid : ℕ) (car : Car)
    (hL : ∀ r, fL r = false) (hD : ∀ r, fD r = false) (hP : ∀ r, fP r = false) :
    fpCount ((enhancedSaveCarListings cy fL fD fP
        ((enhancedSaveCarListings cy fL fD fP db sid [car]).1) sid [car]).1) sid
        (car.title, normPrice car.price)
      = fpCount db sid (car.title, normPrice car.price) + 2 := by
  rw [save_single_fpCount cy fL fD fP _ sid car hL hD hP,
    save_single_fpCount cy fL fD fP db sid car hL hD hP]

/-- C1 witness: the amended theorem at the concrete two-poll run of the
counterexample. -/
theorem save_no_dedup_witness :
    fpCount dbAfterTwoPolls 1 (carTesla.title, normPrice carTesla.price) =
      fpCount dbOneSearch 1 (carTesla.title, normPrice carTesla.price) + 2 :=
  save_no_dedup 2024 noFailL noFailD noFailP dbOneSearch 1 carTesla
    (fun _ => rfl) (fun _ => rfl) (fun _ => rfl)

theorem saveBody_ok_of_noFail (cy : ℤ) (fL : CarListingRow → Bool) (fD : DealScoreRow → Bool)
    (fP : PriceHistoryRow → Bool) (si : Option SearchRow) (sid : ℕ)
    (hL : ∀ r, fL r = false) (hD : ∀ r, fD r = false) (hP : ∀ r, fP r = false) :
    ∀ (cars : List Car) (nid : ℕ), ∃ ls ds ps,
      saveBody cy fL fD fP si sid nid false cars = Except.ok (false, ls, ds, ps) := by
  intro cars
  induction cars with
  | nil => intro nid; exact ⟨[], [], [], rfl⟩
  | cons car rest ih =>
    intro nid
    obtain ⟨ls, ds, ps, hout⟩ := ih (nid + 1)
    refine ⟨listingRowOf sid (enhanceCarListing cy (fillFromSearch si car)) :: ls,
      (dealRowOf nid (enhanceCarListing cy (fillFromSearch si car))).toList ++ ds,
      (phRowOf si (enhanceCarListing cy (fillFromSearch si car))).toList ++ ps, ?_⟩
    rw [saveBody, processCar_ok cy fL fD fP si sid nid car hL hD, phInsert_noFail hP]
    simp only [hout]
    rfl

theorem saveBody_aborted_stays (cy : ℤ) (fL : CarListingRow → Bool)
    (fD : DealScoreRow → Bool) (fP : PriceHistoryRow → Bool) (si : Option SearchRow)
    (sid : ℕ) (cars : List Car) (nid : ℕ)
    (out : Bool × List CarListingRow × List DealScoreRow × List PriceHistoryRow)
    (h : saveBody cy fL fD fP si sid nid true cars = Except.ok out) : out.1 = true := by
  cases cars with
  | nil =>
    rw [saveBody] at h
    cases h
    rfl
  | cons car rest =>
    rw [saveBody] at h
    simp at h

theorem saveBody_clean_eq (cy : ℤ) (fL : CarListingRow → Bool) (fD : DealScoreRow → Bool)
    (fP : PriceHistoryRow → Bool) (si : Option SearchRow) (sid : ℕ) :
    ∀ (cars : List Car) (nid : ℕ) (ls : List CarListingRow) (ds : List DealScoreRow)
      (ps : List PriceHistoryRow),
      saveBody cy fL fD fP si sid nid false cars = Except.ok (false, ls, ds, ps) →
      saveBody cy (fun _ => false) (fun _ => false) (fun _ => false) si sid nid false cars
        = Except.ok (false, ls, ds, ps) := by
  intro cars
  induction cars with
  | nil =>
    intro nid ls ds ps h
    rw [saveBody] at h ⊢
    exact h
  | cons car rest ih =>
    intro nid ls ds ps h
    rw [saveBody] at h
    simp only [Bool.false_eq_true, if_false] at h
    cases hpc : processCar cy fL fD fP si sid nid car with
    | error e => rw [hpc] at h; simp at h
    | ok tup =>
      obtain ⟨row, dOpt, phR, phA⟩ := tup
      obtain ⟨hrow, hdopt, hph⟩ :=
        processCar_ok_inv cy fL fD fP si sid nid car row dOpt phR phA hpc
      rw [hpc] at h
      dsimp only at h
      cases hA : phA with
      | true =>
        rw [hA] at h
        cases hrec : saveBody cy fL fD fP si sid (nid + 1) true rest with
        | error e => rw [hrec] at h; simp at h
        | ok out2 =>
          have hab := saveBody_aborted_stays cy fL fD fP si sid rest (nid + 1) out2 hrec
          obtain ⟨ab2, l2, d2, p2⟩ := out2
          rw [hrec] at h
          dsimp only at h hab
          subst hab
          simp at h
      | false =>
        rw [hA] at h
        cases hrec : saveBody cy fL fD fP si sid (nid + 1) false rest with
        | error e => rw [hrec] at h; simp at h
        | ok out2 =>
          obtain ⟨ab2, l2, d2, p2⟩ := out2
          rw [hrec] at h
          dsimp only at h
          simp only [Except.ok.injEq, Prod.mk.injEq] at h
          obtain ⟨hab2, hls, hds, hps⟩ := h
          rw [hA] at hph
          have hphr : phR = (phRowOf si (enhanceCarListing cy (fillFromSearch si car))).toList :=
            phInsert_notAborted hph
          have hrec' := ih (nid + 1) l2 d2 p2 (by rw [hrec, hab2])
          rw [saveBody]
          simp only [Bool.false_eq_true, if_false]
          rw [processCar_ok cy (fun _ => false) (fun _ => false) (fun _ => false) si sid nid car
            (fun _ => rfl) (fun _ => rfl)]
          rw [phInsert_noFail (fun _ => rfl)]
          simp only [hrec']
          rw [← hls, ← hds, ← hps, hrow, hdopt, hphr]

/-- C7.  Saving one search's batch is atomic.  All-or-nothing: either
nothing from the batch is committed (the database is exactly as before), or
the save behaves exactly as a failure-free run, committing the complete
batch.  A failing listing or deal-score insert raises out of the
`get_db_cursor` context, which rolls the transaction back; a failing
price-history insert, though its Python exception is swallowed, aborts the
PostgreSQL transaction, so either a later insert raises
`InFailedSqlTransaction` (rollback and re-raise) or the terminal commit of
the aborted transaction persists nothing.  With no failing insert the save
never raises and commits the batch.  In every case the database is only
appended to and the searches table untouched, so committed listings of other
searches are unaffected. -/
theorem save_atomicity (cy : ℤ) (fL : CarListingRow → Bool) (fD : DealScoreRow → Bool)
    (fP : PriceHistoryRow → Bool) (db : DB) (sid : ℕ) (cars : List Car) :
    ((enhancedSaveCarListings cy fL fD fP db sid cars).1 = db ∨
      enhancedSaveCarListings cy fL fD fP db sid cars =
        enhancedSaveCarListings cy (fun _ => false) (fun _ => false) (fun _ => false)
          db sid cars) ∧
    ((enhancedSaveCarListings cy fL fD fP db sid cars).2 = true →
      (enhancedSaveCarListings cy fL fD fP db sid cars).1 = db) ∧
    ((∀ r, fL r = false) → (∀ r, fD r = false) → (∀ r, fP r = false) →
      (enhancedSaveCarListings cy fL fD fP db sid cars).2 = false) ∧
    (∃ ls ds ps,
      (enhancedSaveCarListings cy fL fD fP db sid cars).1.listings = db.listings ++ ls ∧
      (enhancedSaveCarListings cy fL fD fP db sid cars).1.dealScores = db.dealScores ++ ds ∧
      (enhancedSaveCarListings cy fL fD fP db sid cars).1.priceHistory
        = db.priceHistory ++ ps ∧
      (enhancedSaveCarListings cy fL fD fP db sid cars).1.searches = db.searches) := by
  cases hm : saveBody cy fL fD fP (db.searches.find? (fun s => s.id == sid)) sid
      db.listings.length false cars with
  | error e =>
    have he : enhancedSaveCarListings cy fL fD fP db sid cars = (db, true) := by
      simp [enhancedSaveCarListings, hm]
    refine ⟨Or.inl (by rw [he]), fun _ => by rw [he], fun hL hD hP => ?_,
      ⟨[], [], [], ?_, ?_, ?_, ?_⟩⟩
    · obtain ⟨ls, ds, ps, hout⟩ := saveBody_ok_of_noFail cy fL fD fP _ sid hL hD hP cars
        db.listings.length
      rw [hout] at hm
      exact absurd hm (by simp)
    all_goals simp [he]
  | ok out =>
    obtain ⟨ab, ls, ds, ps⟩ := out
    cases ab with
    | true =>
      have he : enhancedSaveCarListings cy fL fD fP db sid cars = (db, false) := by
        simp [enhancedSaveCarListings, hm]
      refine ⟨Or.inl (by rw [he]), fun h2 => ?_, fun hL hD hP => by rw [he],
        ⟨[], [], [], ?_, ?_, ?_, ?_⟩⟩
      · rw [he] at h2
        exact absurd h2 (by simp)
      all_goals simp [he]
    | false =>
      have hclean := saveBody_clean_eq cy fL fD fP _ sid cars db.listings.length ls ds ps hm
      have he : enhancedSaveCarListings cy fL fD fP db sid cars =
          ({ db with
              listings := db.listings ++ ls
              dealScores := db.dealScores ++ ds
              priceHistory := db.priceHistory ++ ps }, false) := by
        simp [enhancedSaveCarListings, hm]
      have he' : enhancedSaveCarListings cy (fun _ => false) (fun _ => false) (fun _ => false)
          db sid cars =
          ({ db with
              listings := db.listings ++ ls
              dealScores := db.dealScores ++ ds
              priceHistory := db.priceHistory ++ ps }, false) := by
        simp [enhancedSaveCarListings, hclean]
      refine ⟨Or.inr (by rw [he, he']), fun h2 => ?_, fun hL hD hP => by rw [he],
        ⟨ls, ds, ps, ?_, ?_, ?_, ?_⟩⟩
      · rw [he] at h2
        exact absurd h2 (by simp)
      all_goals simp [he]

/-- C7 witness: the theorem at a concrete failure-free batch — the save does
not raise, and the database is only appended to. -/
theorem save_atomicity_witness :
    (enhancedSaveCarListings 2024 noFailL noFailD noFailP dbOneSearch 1 [carTesla]).2
      = false ∧
    (∃ ls ds ps,
      (enhancedSaveCarListings 2024 noFailL noFailD noFailP dbOneSearch 1
          [carTesla]).1.listings = dbOneSearch.listings ++ ls ∧
      (enhancedSaveCarListings 2024 noFailL noFailD noFailP dbOneSearch 1
          [carTesla]).1.dealScores = dbOneSearch.dealScores ++ ds ∧
      (enhancedSaveCarListings 2024 noFailL noFailD noFailP dbOneSearch 1
          [carTesla]).1.priceHistory = dbOneSearch.priceHistory ++ ps ∧
      (enhancedSaveCarListings 2024 noFailL noFailD noFailP dbOneSearch 1
          [carTesla]).1.searches = dbOneSearch.searches) :=
  ⟨(save_atomicity 2024 noFailL noFailD noFailP dbOneSearch 1 [carTesla]).2.2.1
      (fun _ => rfl) (fun _ => rfl) (fun _ => rfl),
   (save_atomicity 2024 noFailL noFailD noFailP dbOneSearch 1 [carTesla]).2.2.2⟩

/-- Supporting fact (not a claim theorem): a failing price-history insert
aborts the transaction, so the poll commits nothing — and, hitting the last
(here only) car, raises nothing either: the terminal commit of the aborted
transaction is a server-side rollback. -/
theorem save_phFailure_rollsBack :
    enhancedSaveCarListings 2024 noFailL noFailD allFailP dbOneSearch 1 [carTesla]
      = (dbOneSearch, false) := by decide

end Flippit
